import Mathlib

/-!
Shallow embedding of `src/main.py` (eclipse_monitor): a sensor polling and
aggregation program.  Each `Sensor` owns a list `samples` of readings
protected by a mutex; `add_sample` appends under the lock and
`get_average_sample` atomically averages and clears under the same lock.
Because every buffer access holds the buffer's lock, any concurrent
execution is equivalent to a sequential interleaving of atomic `Append`
and `Drain` operations; the trace model below quantifies over all such
interleavings.

Numeric readings are modelled as exact rationals (`ℚ`): the Python code
manipulates floats with `+`, `/`, `sum`, `len` only, and the claims under
study are about which values are combined and when, not about IEEE-754
rounding.  A reading is either a scalar or a tuple of scalars, mirroring
the dynamic `isinstance(self.samples[0], tuple)` dispatch.
-/

/-- A sample value: Python stores either a float or a tuple of floats. -/
inductive Reading where
  | scalar (x : ℚ)
  | tup (xs : List ℚ)
deriving DecidableEq

/-- `Sensor.add_sample` (main.py lines 90-93): append the value to
`self.samples` under the lock.  No validation of any kind is performed. -/
def add_sample (samples : List Reading) (value : Reading) : List Reading :=
  samples ++ [value]

/-- Python iteration of one sample, as used by `zip(*self.samples)`:
a tuple yields its components, a float is not iterable (`TypeError`). -/
def Reading.comps : Reading → Option (List ℚ)
  | .tup xs => some xs
  | .scalar _ => none

/-- Iterate every sample for `zip(*self.samples)`; `none` models the
`TypeError` raised when a non-tuple sample is unpacked. -/
def iterAll : List Reading → Option (List (List ℚ))
  | [] => some []
  | r :: rest =>
    match r.comps, iterAll rest with
    | some xs, some rows => some (xs :: rows)
    | _, _ => none

/-- Python `zip(r, *rest)`: produce tuples of parallel elements, stopping
as soon as any input is exhausted (truncation to the shortest input). -/
def pyZipCons : List ℚ → List (List ℚ) → List (List ℚ)
  | [], _ => []
  | x :: xs, rest =>
    if rest.all (fun l => !l.isEmpty) then
      (x :: rest.map (fun l => l.headD 0)) :: pyZipCons xs (rest.map List.tail)
    else []

/-- Python `zip(*rows)`. -/
def pyZip : List (List ℚ) → List (List ℚ)
  | [] => []
  | r :: rest => pyZipCons r rest

/-- Python `sum(self.samples)` on the scalar branch: left fold starting at
`0`; adding a tuple to a number raises `TypeError` (modelled as `none`). -/
def sumScalars : List Reading → Option ℚ
  | [] => some 0
  | .scalar x :: rest => (sumScalars rest).map (fun s => x + s)
  | .tup _ :: _ => none

/-- `Sensor.get_average_sample` (main.py lines 95-106), under the lock:
return `None` on an empty buffer; otherwise dispatch on whether the first
sample is a tuple, compute the average, clear the buffer and return the
average.  `.error ()` models a `TypeError` escaping the method (raised
before `self.samples.clear()`, so the buffer is left unchanged); on
success the pair is `(returned value, buffer contents afterwards)`. -/
def get_average_sample (samples : List Reading) :
    Except Unit (Option Reading × List Reading) :=
  match samples with
  | [] => .ok (none, [])
  | .tup _ :: _ =>
    match iterAll samples with
    | none => .error ()
    | some rows =>
      let cols := pyZip rows
      .ok (some (.tup (cols.map (fun col => col.sum / (col.length : ℚ)))), [])
  | .scalar _ :: _ =>
    match sumScalars samples with
    | none => .error ()
    | some s => .ok (some (.scalar (s / (samples.length : ℚ))), [])

/-- Two readings have the same shape: both scalars, or tuples of equal
arity. -/
def sameShape : Reading → Reading → Bool
  | .scalar _, .scalar _ => true
  | .tup xs, .tup ys => xs.length == ys.length
  | _, _ => false

/-- A buffer has consistent shape when every sample matches the first. -/
def consistentShape : List Reading → Bool
  | [] => true
  | r :: rest => rest.all (sameShape r)

/-- Component `i` of a sample, defaulting to `0` (only used at indices
that exist whenever the shape is consistent). -/
def compD (i : Nat) : Reading → ℚ
  | .tup xs => xs.getD i 0
  | .scalar _ => 0

/-- The scalar value of a sample, defaulting to `0`. -/
def valD : Reading → ℚ
  | .scalar x => x
  | .tup _ => 0

/-- The exact per-component arithmetic mean demanded by the spec:
a scalar buffer averages the scalars; a tuple buffer of arity `k`
averages each component independently across all samples. -/
def specMean (l : List Reading) : Reading :=
  match l with
  | .scalar _ :: _ => .scalar ((l.map valD).sum / (l.length : ℚ))
  | .tup xs :: _ =>
    .tup ((List.range xs.length).map
      (fun i => (l.map (compD i)).sum / (l.length : ℚ)))
  | [] => .scalar 0

example : get_average_sample [.tup [1, 2], .tup [3, 4]] =
    .ok (some (.tup [2, 3]), []) := by
  norm_num [get_average_sample, iterAll, pyZip, pyZipCons, Reading.comps]

example : get_average_sample [.scalar 10, .scalar 20, .scalar 30] =
    .ok (some (.scalar 20), []) := by
  norm_num [get_average_sample, sumScalars]

example : get_average_sample [] = .ok (none, []) := rfl

example : get_average_sample [.scalar 1, .tup [2, 3]] = .error () := rfl

example : get_average_sample [.tup [2, 3], .scalar 1] = .error () := rfl

/-- The components a sample contributes to `zip(*samples)` (total version
of `Reading.comps`, used only to state lemmas). -/
def compsD : Reading → List ℚ
  | .tup xs => xs
  | .scalar _ => []

theorem compD_eq (i : Nat) (r : Reading) : compD i r = (compsD r).getD i 0 := by
  cases r <;> simp [compD, compsD]

theorem sameShape_scalar {x : ℚ} {r : Reading}
    (h : sameShape (.scalar x) r = true) : ∃ y, r = .scalar y := by
  cases r with
  | scalar y => exact ⟨y, rfl⟩
  | tup ys => simp [sameShape] at h

theorem sameShape_tup {xs : List ℚ} {r : Reading}
    (h : sameShape (.tup xs) r = true) :
    ∃ ys, r = .tup ys ∧ ys.length = xs.length := by
  cases r with
  | scalar y => simp [sameShape] at h
  | tup ys =>
    refine ⟨ys, rfl, ?_⟩
    have h' : xs.length = ys.length := by simpa [sameShape] using h
    exact h'.symm

theorem sumScalars_of_scalars :
    ∀ {l : List Reading}, (∀ r ∈ l, ∃ y, r = .scalar y) →
      sumScalars l = some ((l.map valD).sum) := by
  intro l
  induction l with
  | nil => intro _; simp [sumScalars]
  | cons r rest ih =>
    intro h
    obtain ⟨y, rfl⟩ := h r (by simp)
    have := ih (fun r hr => h r (by simp [hr]))
    simp [sumScalars, this, valD]

theorem iterAll_of_tups :
    ∀ {l : List Reading}, (∀ r ∈ l, ∃ ys, r = .tup ys) →
      iterAll l = some (l.map compsD) := by
  intro l
  induction l with
  | nil => intro _; simp [iterAll]
  | cons r rest ih =>
    intro h
    obtain ⟨ys, rfl⟩ := h r (by simp)
    have := ih (fun r hr => h r (by simp [hr]))
    simp [iterAll, this, Reading.comps, compsD]

theorem pyZipCons_uniform :
    ∀ (xs : List ℚ) (rest : List (List ℚ)),
      (∀ l ∈ rest, l.length = xs.length) →
      pyZipCons xs rest =
        (List.range xs.length).map
          (fun i => (xs :: rest).map (fun r => r.getD i 0)) := by
  intro xs
  induction xs with
  | nil => intro rest _; simp [pyZipCons]
  | cons x t ih =>
    intro rest hlen
    have hne : rest.all (fun l => !l.isEmpty) = true := by
      rw [List.all_eq_true]
      intro l hl
      have := hlen l hl
      cases l with
      | nil => simp at this
      | cons a b => simp
    have htail : ∀ l ∈ rest.map List.tail, l.length = t.length := by
      intro l hl
      rw [List.mem_map] at hl
      obtain ⟨l', hl', rfl⟩ := hl
      have := hlen l' hl'
      cases l' with
      | nil => simp at this
      | cons a b => simpa using Nat.succ_injective this
    rw [pyZipCons, if_pos hne, ih (rest.map List.tail) htail,
      List.length_cons, List.range_succ_eq_map]
    simp only [List.map_cons, List.map_map, List.getD_cons_zero]
    congr 1
    · congr 1
      apply List.map_congr_left
      intro l hl
      have := hlen l hl
      cases l with
      | nil => simp at this
      | cons a b => simp
    · apply List.map_congr_left
      intro i _
      simp only [Function.comp_def, List.getD_cons_succ, List.map_map]
      congr 1
      apply List.map_congr_left
      intro l hl
      have := hlen l hl
      cases l with
      | nil => simp at this
      | cons a b => simp

/-- C2: on a non-empty buffer of consistent shape, `get_average_sample`
returns exactly the per-component arithmetic mean of the buffered readings
and leaves the buffer empty; on an empty buffer it returns `None`
(`NoData`), never a zero average — so a second drain right after a drain
(which empties the buffer) returns `NoData`. -/
theorem drain_average_exact_mean (l : List Reading)
    (hne : l ≠ []) (hc : consistentShape l = true) :
    get_average_sample l = .ok (some (specMean l), []) ∧
    get_average_sample [] = .ok (none, []) := by
  refine ⟨?_, rfl⟩
  cases l with
  | nil => exact absurd rfl hne
  | cons r rest =>
    cases r with
    | scalar x =>
      have hshape : ∀ s ∈ rest, sameShape (.scalar x) s = true := by
        simpa [consistentShape, List.all_eq_true] using hc
      have hall : ∀ s ∈ (Reading.scalar x :: rest), ∃ y, s = .scalar y := by
        intro s hs
        rcases List.mem_cons.mp hs with h | h
        · exact ⟨x, h⟩
        · exact sameShape_scalar (hshape s h)
      have hsum := sumScalars_of_scalars hall
      simp [get_average_sample, hsum, specMean]
    | tup xs =>
      have hshape : ∀ s ∈ rest, sameShape (.tup xs) s = true := by
        simpa [consistentShape, List.all_eq_true] using hc
      have halltup : ∀ s ∈ (Reading.tup xs :: rest), ∃ ys, s = .tup ys := by
        intro s hs
        rcases List.mem_cons.mp hs with h | h
        · exact ⟨xs, h⟩
        · obtain ⟨ys, rfl, -⟩ := sameShape_tup (hshape s h)
          exact ⟨ys, rfl⟩
      have hiter := iterAll_of_tups halltup
      have hlen : ∀ m ∈ rest.map compsD, m.length = xs.length := by
        intro m hm
        rw [List.mem_map] at hm
        obtain ⟨s, hs, rfl⟩ := hm
        obtain ⟨ys, rfl, hys⟩ := sameShape_tup (hshape s hs)
        simpa [compsD] using hys
      have hzip := pyZipCons_uniform xs (rest.map compsD) hlen
      have hcol : ∀ i : Nat,
          (xs :: rest.map compsD).map (fun r => r.getD i 0) =
            (Reading.tup xs :: rest).map (compD i) := by
        intro i
        simp only [List.map_cons, List.map_map]
        congr 1
        apply List.map_congr_left
        intro s _
        cases s <;> simp [compD, compsD, Function.comp_def]
      have hg : get_average_sample (Reading.tup xs :: rest) =
          .ok (some (.tup ((pyZipCons xs (rest.map compsD)).map
            (fun col => col.sum / (col.length : ℚ)))), []) := by
        simp only [get_average_sample, hiter, List.map_cons, compsD, pyZip]
      rw [hg, hzip, List.map_map]
      simp only [specMean]
      congr 4
      rw [List.map_inj_left]
      intro i _
      simp only [Function.comp_def, hcol i, List.length_map,
        List.length_cons]

/-- Witness for C2 at the spec scenario: a tuple buffer holding
[(1,2), (3,4)] is non-empty and consistent, and drains to the exact mean. -/
theorem drain_average_exact_mean_witness :
    ([Reading.tup [1, 2], Reading.tup [3, 4]] : List Reading) ≠ [] ∧
    consistentShape [Reading.tup [1, 2], Reading.tup [3, 4]] = true ∧
    (get_average_sample [Reading.tup [1, 2], Reading.tup [3, 4]] =
        .ok (some (specMean [Reading.tup [1, 2], Reading.tup [3, 4]]), []) ∧
      get_average_sample [] = .ok (none, [])) :=
  ⟨by simp, by decide,
   drain_average_exact_mean [Reading.tup [1, 2], Reading.tup [3, 4]]
     (by simp) (by decide)⟩

/-- One buffer operation: a polling loop's `add_sample` or a drainer's
`get_average_sample`.  The per-buffer mutex serialises all accesses, so a
concurrent history of the buffer is an arbitrary list of these. -/
inductive Op where
  | append (v : Reading)
  | drain
deriving DecidableEq

/-- Trace outcome: the final buffer contents, the contents consumed by
each drain (in order; a drain that raised consumed nothing and is not
listed), and each drain call's returned value. -/
structure RunResult where
  buf : List Reading
  batches : List (List Reading)
  outs : List (Except Unit (Option Reading))

/-- Run a history of buffer operations from buffer `b`: `append` calls
`add_sample`; `drain` calls `get_average_sample`, which on success leaves
the cleared buffer it returns and on error leaves the buffer untouched. -/
def runOps : List Op → List Reading → RunResult
  | [], b => ⟨b, [], []⟩
  | .append v :: rest, b => runOps rest (add_sample b v)
  | .drain :: rest, b =>
    match get_average_sample b with
    | .error e =>
      let r := runOps rest b
      ⟨r.buf, r.batches, .error e :: r.outs⟩
    | .ok (o, b') =>
      let r := runOps rest b'
      ⟨r.buf, b :: r.batches, .ok o :: r.outs⟩

/-- The readings appended over a history, in order. -/
def appendedOf : List Op → List Reading
  | [] => []
  | .append v :: rest => v :: appendedOf rest
  | .drain :: rest => appendedOf rest

theorem get_average_sample_ok_clears {l : List Reading}
    {o : Option Reading} {l' : List Reading}
    (h : get_average_sample l = .ok (o, l')) : l' = [] := by
  unfold get_average_sample at h
  split at h
  · simp only [Except.ok.injEq, Prod.mk.injEq] at h
    exact h.2.symm
  · split at h
    · exact absurd h (by simp)
    · simp only [Except.ok.injEq, Prod.mk.injEq] at h
      exact h.2.symm
  · split at h
    · exact absurd h (by simp)
    · simp only [Except.ok.injEq, Prod.mk.injEq] at h
      exact h.2.symm

theorem runOps_partition :
    ∀ (ops : List Op) (b : List Reading),
      (runOps ops b).batches.flatten ++ (runOps ops b).buf =
        b ++ appendedOf ops := by
  intro ops
  induction ops with
  | nil => intro b; simp [runOps, appendedOf]
  | cons op rest ih =>
    intro b
    cases op with
    | append v =>
      have := ih (add_sample b v)
      simpa [runOps, appendedOf, add_sample] using this
    | drain =>
      cases hg : get_average_sample b with
      | error e =>
        have := ih b
        simp [runOps, hg, appendedOf, this]
      | ok p =>
        obtain ⟨o, b'⟩ := p
        have hb' : b' = [] := get_average_sample_ok_clears hg
        subst hb'
        have := ih []
        simp only [runOps, hg, appendedOf, List.flatten_cons,
          List.append_assoc]
        rw [this]
        simp

/-- C1: over any serialised history of `add_sample` and
`get_average_sample` calls on one buffer (the per-buffer lock serialises
them), the concatenation of the samples consumed by the drains, followed
by the samples still buffered, is exactly the sequence of appended
readings — no reading is double-counted and none is lost; a reading still
buffered is one no drain call followed.  In particular, when the final
buffer is empty the drains partition the appended readings exactly. -/
theorem buffer_drains_partition_appends (ops : List Op) :
    (runOps ops []).batches.flatten ++ (runOps ops []).buf =
      appendedOf ops ∧
    ((runOps ops []).buf = [] →
      (runOps ops []).batches.flatten = appendedOf ops) := by
  have h := runOps_partition ops []
  rw [List.nil_append] at h
  refine ⟨h, fun hb => ?_⟩
  rw [hb, List.append_nil] at h
  exact h

/-- Witness for C1 on the history
append 1; append 2; drain; append 3; drain, whose final buffer is empty:
the two drains together consume exactly the three appended readings. -/
theorem buffer_drains_partition_appends_witness :
    (runOps [Op.append (.scalar 1), Op.append (.scalar 2), Op.drain,
        Op.append (.scalar 3), Op.drain] []).buf = [] ∧
    (runOps [Op.append (.scalar 1), Op.append (.scalar 2), Op.drain,
        Op.append (.scalar 3), Op.drain] []).batches.flatten =
      appendedOf [Op.append (.scalar 1), Op.append (.scalar 2), Op.drain,
        Op.append (.scalar 3), Op.drain] :=
  ⟨rfl,
   (buffer_drains_partition_appends
     [Op.append (.scalar 1), Op.append (.scalar 2), Op.drain,
      Op.append (.scalar 3), Op.drain]).2 rfl⟩

/-- `Sensor.start` (main.py lines 68-73): the polling thread is started
iff the sensor initialized; otherwise start only logs a warning.  Returns
whether the polling loop was started. -/
def sensor_start (flag : Bool) : Bool := flag

/-- One iteration of the polling loop `Sensor.run` (main.py lines 75-82):
if the initialized flag holds, call the subclass `read` inside a `try`
whose `except` logs and absorbs any exception (leaving the sensor state
as `read` left it — here unchanged, since the raise abandons the call);
then sleep.  `read` is an arbitrary state transformer that may raise. -/
def run_cycle {S : Type} (chk : S → Bool) (read : S → Except Unit S)
    (s : S) : S :=
  if chk s then
    match read s with
    | .ok s' => s'
    | .error _ => s
  else s

/-- `n` iterations of the polling loop. -/
def run_cycles {S : Type} (chk : S → Bool) (read : S → Except Unit S) :
    Nat → S → S
  | 0, s => s
  | n + 1, s => run_cycles chk read n (run_cycle chk read s)

/-- C6: a `read` that raises during a polling cycle is absorbed inside
the loop body — the cycle is a no-op and every later iteration proceeds
exactly as if the failing cycle had been skipped; no read failure
propagates out of `run_cycle`, which is a total function. -/
theorem read_error_contained {S : Type} (chk : S → Bool)
    (read : S → Except Unit S) (s : S) (h : read s = .error ()) :
    run_cycle chk read s = s ∧
    ∀ n : Nat, run_cycles chk read n (run_cycle chk read s) =
      run_cycles chk read n s := by
  have h1 : run_cycle chk read s = s := by
    unfold run_cycle
    split
    · rw [h]
    · rfl
  exact ⟨h1, fun n => by rw [h1]⟩

/-- Witness for C6: an always-raising `read` on a buffer-typed state
leaves the state untouched for that cycle. -/
theorem read_error_contained_witness :
    (fun _ : List Reading => (Except.error () : Except Unit (List Reading)))
        [] = .error () ∧
    run_cycle (fun _ => true)
      (fun _ : List Reading => (Except.error () : Except Unit (List Reading)))
      [] = [] :=
  ⟨rfl,
   (read_error_contained (fun _ => true)
     (fun _ : List Reading => (Except.error () : Except Unit (List Reading)))
     [] rfl).1⟩

/-- C8: a sensor whose initialization failed never starts its polling
loop (`sensor_start false = false`, and even a running loop body is a
no-op when the flag check fails), so its buffer receives no `add_sample`;
its lifetime history is drains only, and every one of them returns
`NoData` (`none`) with the buffer staying empty. -/
theorem failed_sensor_always_nodata :
    sensor_start false = false ∧
    (∀ (S : Type) (read : S → Except Unit S) (s : S),
      run_cycle (fun _ => false) read s = s) ∧
    ∀ n : Nat,
      (runOps (List.replicate n .drain) []).buf = [] ∧
      (runOps (List.replicate n .drain) []).outs =
        List.replicate n (.ok none) := by
  refine ⟨rfl, fun S read s => by simp [run_cycle], ?_⟩
  intro n
  induction n with
  | zero => exact ⟨rfl, rfl⟩
  | succ k ih =>
    rw [List.replicate_succ]
    have hg : get_average_sample ([] : List Reading) = .ok (none, []) := rfl
    simp only [runOps, hg]
    exact ⟨ih.1, by rw [List.replicate_succ]; simp [ih.2]⟩

/-- State of the derived `SGP40Sensor`: its one-shot initialization flag,
the two upstream sensors' buffers (`AHTTemperatureSensor` and
`AHTHumiditySensor`), and its own buffer. -/
structure SGP40State where
  initialized : Bool
  tempSamples : List Reading
  humSamples : List Reading
  ownSamples : List Reading
deriving DecidableEq

/-- `SGP40Sensor.interval` (main.py lines 257-258):
`return 1 if self.initialized else 60`. -/
def sgp40_interval (s : SGP40State) : Nat :=
  if s.initialized then 1 else 60

/-- `SGP40Sensor.read` (main.py lines 260-272): drain the temperature
upstream, then the humidity upstream; if either average is `None`, log
and return without appending; otherwise call the hardware driver
`self.sensor.measure_index(temp_avg, hum_avg)` — modelled by the numeric
function `measureIndex`; a non-numeric (tuple) average makes that driver
call raise — and append the single resulting scalar to the own buffer.
The surrounding `try`/`except` absorbs any exception after whatever
buffer mutations already happened: a raise in the temperature drain
leaves everything unchanged; a raise in the humidity drain leaves the
temperature buffer already drained. -/
def sgp40_read (measureIndex : ℚ → ℚ → ℚ) (s : SGP40State) : SGP40State :=
  if s.initialized then
    match get_average_sample s.tempSamples with
    | .error _ => s
    | .ok (tAvg, temp') =>
      match get_average_sample s.humSamples with
      | .error _ => { s with tempSamples := temp' }
      | .ok (hAvg, hum') =>
        match tAvg, hAvg with
        | some (.scalar t), some (.scalar h) =>
          { s with
            tempSamples := temp'
            humSamples := hum'
            ownSamples := add_sample s.ownSamples
              (.scalar (measureIndex t h)) }
        | _, _ =>
          { s with
            tempSamples := temp'
            humSamples := hum' }
  else s

/-- C4 counterexample: an initialized derived sensor whose upstream
buffers are empty — both upstream drains return `NoData` — polls at 1 s,
not the 60 s back-off the claim requires while upstream data is
unavailable.  The interval is keyed on the one-shot `initialized` flag,
not on upstream availability. -/
theorem sgp40_interval_cex :
    (SGP40State.mk true [] [] []).initialized = true ∧
    get_average_sample (SGP40State.mk true [] [] []).tempSamples =
      .ok (none, []) ∧
    get_average_sample (SGP40State.mk true [] [] []).humSamples =
      .ok (none, []) ∧
    sgp40_interval (SGP40State.mk true [] [] []) = 1 ∧
    sgp40_interval (SGP40State.mk true [] [] []) ≠ 60 :=
  ⟨rfl, rfl, rfl, rfl, by decide⟩

/-- C4 amended: the derived sensor's interval is determined solely by its
one-shot initialization flag — 1 s when hardware initialization
succeeded, 60 s when it failed — and is independent of the upstream
buffers' contents (so it does not back off while upstream data is
unavailable). -/
theorem sgp40_interval_amended :
    (∀ s t : SGP40State, s.initialized = t.initialized →
      sgp40_interval s = sgp40_interval t) ∧
    (∀ s : SGP40State, s.initialized = true → sgp40_interval s = 1) ∧
    (∀ s : SGP40State, s.initialized = false → sgp40_interval s = 60) :=
  ⟨fun s t h => by simp [sgp40_interval, h],
   fun s h => by simp [sgp40_interval, h],
   fun s h => by simp [sgp40_interval, h]⟩

/-- Witness for the amended C4: interval 1 with empty upstream buffers
when initialized, 60 when initialization failed. -/
theorem sgp40_interval_amended_witness :
    sgp40_interval ⟨true, [], [], []⟩ = 1 ∧
    sgp40_interval ⟨false, [.scalar 3], [], []⟩ = 60 :=
  ⟨sgp40_interval_amended.2.1 ⟨true, [], [], []⟩ rfl,
   sgp40_interval_amended.2.2 ⟨false, [.scalar 3], [], []⟩ rfl⟩

/-- C5: on an initialized derived sensor, if the two upstream drains
succeed then: when either returns `NoData` the cycle appends nothing —
the resulting state is unchanged except for the upstreams' drain
side-effect; when both return scalar values, exactly one derived scalar
is appended to the own buffer, and the upstream buffers hold exactly what
their drains left (no further mutation). -/
theorem sgp40_read_frame (measureIndex : ℚ → ℚ → ℚ) (s : SGP40State)
    (hinit : s.initialized = true)
    {tAvg hAvg : Option Reading} {temp' hum' : List Reading}
    (ht : get_average_sample s.tempSamples = .ok (tAvg, temp'))
    (hh : get_average_sample s.humSamples = .ok (hAvg, hum')) :
    ((tAvg = none ∨ hAvg = none) →
      sgp40_read measureIndex s =
        { s with tempSamples := temp', humSamples := hum' }) ∧
    (∀ t h : ℚ, tAvg = some (.scalar t) → hAvg = some (.scalar h) →
      sgp40_read measureIndex s =
        { s with
          tempSamples := temp'
          humSamples := hum'
          ownSamples := s.ownSamples ++ [.scalar (measureIndex t h)] }) := by
  constructor
  · rintro (rfl | rfl)
    · simp [sgp40_read, hinit, ht, hh]
    · cases tAvg with
      | none => simp [sgp40_read, hinit, ht, hh]
      | some r => cases r <;> simp [sgp40_read, hinit, ht, hh]
  · rintro t h rfl rfl
    simp [sgp40_read, hinit, ht, hh, add_sample]

/-- Witness for C5 at the spec scenario: upstream averages 25 and 50 are
drained, one derived scalar is appended, and the upstream buffers are
left exactly drained. -/
theorem sgp40_read_frame_witness :
    sgp40_read (fun t h => t + h)
        ⟨true, [.scalar 25], [.scalar 50], []⟩ =
      ⟨true, [], [], [.scalar 75]⟩ := by
  have ht : get_average_sample [Reading.scalar 25] =
      .ok (some (.scalar 25), []) := by
    norm_num [get_average_sample, sumScalars]
  have hh : get_average_sample [Reading.scalar 50] =
      .ok (some (.scalar 50), []) := by
    norm_num [get_average_sample, sumScalars]
  have h := (@sgp40_read_frame (fun t h => t + h)
      ⟨true, [.scalar 25], [.scalar 50], []⟩ rfl
      (some (.scalar 25)) (some (.scalar 50)) [] [] ht hh).2 25 50 rfl rfl
  rw [h]
  norm_num

/-- C9: when the derived sensor reads while the temperature upstream has
data but the humidity upstream is empty, the temperature buffer is still
emptied (it is drained before the humidity result is checked) and its
average is discarded: nothing is appended to the own buffer and nothing
else changes. -/
theorem sgp40_read_discards_temp (measureIndex : ℚ → ℚ → ℚ)
    (s : SGP40State) (hinit : s.initialized = true) {a : Reading}
    (ht : get_average_sample s.tempSamples = .ok (some a, []))
    (hh : s.humSamples = []) :
    sgp40_read measureIndex s = { s with tempSamples := [] } := by
  obtain ⟨flag, ts, hs, os⟩ := s
  simp only at hinit hh ht
  subst hinit hh
  have hg : get_average_sample ([] : List Reading) = .ok (none, []) := rfl
  cases a <;> simp [sgp40_read, ht, hg]

/-- Witness for C9: temperature buffer [7] is emptied, humidity is empty,
and the own buffer is untouched. -/
theorem sgp40_read_discards_temp_witness :
    sgp40_read (fun t h => t + h) ⟨true, [.scalar 7], [], [.scalar 9]⟩ =
      ⟨true, [], [], [.scalar 9]⟩ := by
  have ht : get_average_sample [Reading.scalar 7] =
      .ok (some (.scalar 7), []) := by
    norm_num [get_average_sample, sumScalars]
  exact @sgp40_read_discards_temp (fun t h => t + h)
    ⟨true, [.scalar 7], [], [.scalar 9]⟩ rfl (.scalar 7) ht rfl

/-- C3 counterexample: appending a tuple to a buffer whose prior
un-drained reading is a scalar neither fails nor drops the reading —
`add_sample` has no failure path and no shape check, and the mismatched
reading is silently stored alongside the prior one (a log-and-drop
behaviour would have left the buffer at `[scalar 1]`). -/
theorem add_sample_no_check_cex :
    add_sample [Reading.scalar 1] (Reading.tup [2, 3]) =
      [Reading.scalar 1, Reading.tup [2, 3]] ∧
    add_sample [Reading.scalar 1] (Reading.tup [2, 3]) ≠
      [Reading.scalar 1] :=
  ⟨rfl, by simp [add_sample]⟩

/-- C3 amended: `add_sample` performs no shape validation — every
appended reading, matching or not, is stored in the buffer alongside all
prior un-drained readings.  A scalar/tuple mismatch is not silently
coerced: it surfaces at the next drain, whose average computation raises
(`TypeError`, logged by the drain's caller) in either order of the
mismatch. -/
theorem add_sample_amended :
    (∀ (samples : List Reading) (v : Reading),
      v ∈ add_sample samples v ∧
      ∀ u ∈ samples, u ∈ add_sample samples v) ∧
    get_average_sample [Reading.scalar 1, Reading.tup [2, 3]] =
      .error () ∧
    get_average_sample [Reading.tup [2, 3], Reading.scalar 1] =
      .error () :=
  ⟨fun samples v =>
    ⟨by simp [add_sample], fun u hu => by simp [add_sample, hu]⟩,
   rfl, rfl⟩

/-- Witness for the amended C3: both the prior scalar and the mismatched
tuple are in the buffer after the append. -/
theorem add_sample_amended_witness :
    Reading.tup [2, 3] ∈ add_sample [Reading.scalar 1] (Reading.tup [2, 3]) ∧
    Reading.scalar 1 ∈ add_sample [Reading.scalar 1] (Reading.tup [2, 3]) :=
  ⟨(add_sample_amended.1 [Reading.scalar 1] (Reading.tup [2, 3])).1,
   (add_sample_amended.1 [Reading.scalar 1] (Reading.tup [2, 3])).2
     (Reading.scalar 1) (by simp)⟩

/-- Round to the nearest integer, ties to even — how IEEE-754/`printf`
style formatting rounds — idealised over `ℚ`. -/
def roundHalfEven (x : ℚ) : Int :=
  if x - ⌊x⌋ < 1 / 2 then ⌊x⌋
  else if 1 / 2 < x - ⌊x⌋ then ⌊x⌋ + 1
  else if ⌊x⌋ % 2 = 0 then ⌊x⌋ else ⌊x⌋ + 1

/-- Python `f"{value:.1f}"`, idealised over `ℚ`: the value rounded to one
decimal place and printed with exactly one digit after the point. -/
def fmt1 (x : ℚ) : String :=
  (if x < 0 then "-" else "") ++
    toString ((roundHalfEven (x * 10)).natAbs / 10) ++ "." ++
    toString ((roundHalfEven (x * 10)).natAbs % 10)

/-- Formatting one reading with `"{value:.1f}"`: defined for scalars;
`none` models the `TypeError` a tuple average raises inside `post_data`'s
`try` (tuple averages are never put on the wire). -/
def fmtReading : Reading → Option String
  | .scalar x => some (fmt1 x)
  | .tup _ => none

/-- The InfluxDB line-protocol payload
`f"{measurement},sensor={sensor_name} value={value:.1f} {timestamp}"`. -/
def influxLine (measurement sensor_name v : String) (ts : Nat) : String :=
  measurement ++ ",sensor=" ++ sensor_name ++ " value=" ++ v ++ " " ++
    toString ts

/-- The outcome of `requests.post`: `postFails = true` models the call
raising (connection error and the like). -/
def transmit (postFails : Bool) : Except Unit Unit :=
  if postFails then .error () else .ok ()

/-- `Sensor.post_data` (main.py lines 108-118): skip silently when the
value is `None`; otherwise format the payload and issue the HTTP write
inside a `try` whose `except` logs and discards any failure.  The result
is the list of write attempts put on the wire this call (empty or one
line); a transmit failure happens after the attempt and is absorbed, so
it changes nothing observable here.  `ts` stands for the wall clock
`int(time.time()*1e9)`. -/
def post_data (measurement : String) (value : Option Reading)
    (sensor_name : String) (ts : Nat) (postFails : Bool) : List String :=
  match value with
  | none => []
  | some v =>
    match fmtReading v with
    | none => []
    | some vs =>
      match transmit postFails with
      | .ok _ => [influxLine measurement sensor_name vs ts]
      | .error _ => [influxLine measurement sensor_name vs ts]

/-- One sensor as the orchestrator's tick sees it: its class name (used
as the sink tag), its buffer, and whether its HTTP write would raise this
tick. -/
structure OrchSensor where
  name : String
  samples : List Reading
  postFails : Bool

/-- `Sensor.process_and_post_data` (main.py lines 120-126): drain the
buffer and, when the average is a value, post it with measurement
`"value"` and the class name as tag — all inside a `try` whose `except`
logs any error (for example a shape-mismatch `TypeError` from the drain,
which then leaves the buffer unchanged).  Returns the updated sensor and
the write attempts. -/
def process_and_post_data (ts : Nat) (s : OrchSensor) :
    OrchSensor × List String :=
  match get_average_sample s.samples with
  | .error _ => (s, [])
  | .ok (avg, samples') =>
    match avg with
    | none => ({ s with samples := samples' }, [])
    | some v =>
      ({ s with samples := samples' },
       post_data "value" (some v) s.name ts s.postFails)

/-- One orchestrator tick (main.py lines 317-324): for each sensor in
order, call `process_and_post_data` inside a `try` whose `except` logs;
collect the updated sensors and all write attempts of the tick. -/
def main_tick (ts : Nat) : List OrchSensor → List OrchSensor × List String
  | [] => ([], [])
  | s :: rest =>
    let p := process_and_post_data ts s
    let r := main_tick ts rest
    (p.1 :: r.1, p.2 ++ r.2)

theorem post_data_ignores_fails (m : String) (v : Option Reading)
    (n : String) (ts : Nat) (b b' : Bool) :
    post_data m v n ts b = post_data m v n ts b' := by
  cases v with
  | none => rfl
  | some r =>
    cases r with
    | scalar x => cases b <;> cases b' <;> rfl
    | tup xs => rfl

/-- C7: the orchestrator tick processes every sensor independently: the
tick is exactly the per-sensor processing mapped over the sensor list
(one sensor's failure cannot change any other's processing, and the tick
is a total function so later ticks always run); a transmit failure
changes neither the sensor's resulting buffer nor the attempts put on the
wire; a drain returning `NoData` forwards nothing; a drain that raises is
absorbed, forwards nothing and leaves that sensor unchanged. -/
theorem tick_fault_isolation (ts : Nat) :
    (∀ sensors : List OrchSensor,
      main_tick ts sensors =
        (sensors.map (fun s => (process_and_post_data ts s).1),
         sensors.flatMap (fun s => (process_and_post_data ts s).2))) ∧
    (∀ (s : OrchSensor) (b : Bool),
      ((process_and_post_data ts { s with postFails := b }).1).samples =
        ((process_and_post_data ts s).1).samples ∧
      (process_and_post_data ts { s with postFails := b }).2 =
        (process_and_post_data ts s).2) ∧
    (∀ (s : OrchSensor) (l : List Reading),
      get_average_sample s.samples = .ok (none, l) →
        (process_and_post_data ts s).2 = []) ∧
    (∀ s : OrchSensor, get_average_sample s.samples = .error () →
      process_and_post_data ts s = (s, [])) := by
  refine ⟨?_, ?_, ?_, ?_⟩
  · intro sensors
    induction sensors with
    | nil => rfl
    | cons s rest ih => simp [main_tick, ih]
  · intro s b
    unfold process_and_post_data
    cases hg : get_average_sample s.samples with
    | error e => simp [hg]
    | ok p =>
      obtain ⟨avg, samples'⟩ := p
      cases avg with
      | none => simp [hg]
      | some v =>
        constructor
        · simp [hg]
        · simp only [hg]
          exact post_data_ignores_fails "value" (some v) s.name ts b
            s.postFails
  · intro s l h
    simp [process_and_post_data, h]
  · intro s h
    simp [process_and_post_data, h]

/-- Witness for C7: a sensor whose drain yields `NoData` forwards
nothing in the tick. -/
theorem tick_fault_isolation_witness :
    get_average_sample ([] : List Reading) = .ok (none, []) ∧
    (process_and_post_data 0 ⟨"TSL2561Sensor", [], true⟩).2 = [] :=
  ⟨rfl, (tick_fault_isolation 0).2.2.1 ⟨"TSL2561Sensor", [], true⟩ [] rfl⟩

/-- C10: every forwarded average is written with measurement name
`"value"`, tagged with the sensor's class name, and the wire value is the
average formatted to exactly one decimal place — not the exact mean, as
`fmt1 (7/3) = "2.3"` with `7/3 ≠ 23/10` shows — while a `None` value is
silently skipped (no write attempt). -/
theorem post_data_format (ts : Nat) :
    (∀ (s : OrchSensor) (v : ℚ) (l : List Reading),
      get_average_sample s.samples = .ok (some (.scalar v), l) →
      (process_and_post_data ts s).2 =
        ["value" ++ ",sensor=" ++ s.name ++ " value=" ++ fmt1 v ++ " " ++
          toString ts]) ∧
    (∀ (m n : String) (b : Bool), post_data m none n ts b = []) ∧
    fmt1 (7 / 3) = "2.3" ∧ (7 : ℚ) / 3 ≠ 23 / 10 := by
  refine ⟨?_, ?_, ?_, by norm_num⟩
  · intro s v l h
    cases hb : s.postFails <;>
      simp [process_and_post_data, h, post_data, fmtReading, transmit, hb,
        influxLine]
  · intro m n b
    rfl
  · have h10 : (7 / 3 * 10 : ℚ) = 70 / 3 := by norm_num
    have hf : (⌊(70 / 3 : ℚ)⌋ : Int) = 23 := by
      rw [Int.floor_eq_iff]
      norm_num
    have hr : roundHalfEven (7 / 3 * 10) = 23 := by
      rw [h10]
      unfold roundHalfEven
      rw [hf]
      norm_num
    unfold fmt1
    rw [hr, if_neg (by norm_num : ¬((7 : ℚ) / 3 < 0))]
    rfl

/-- Witness for C10: three scalar readings averaging 7/3 are forwarded
as one line with measurement `"value"`, tag `UVSensor` and the value
formatted to one decimal. -/
theorem post_data_format_witness :
    get_average_sample
        [Reading.scalar 2, Reading.scalar 2, Reading.scalar 3] =
      .ok (some (.scalar (7 / 3)), []) ∧
    (process_and_post_data 0
        ⟨"UVSensor", [Reading.scalar 2, Reading.scalar 2, Reading.scalar 3],
          false⟩).2 =
      ["value" ++ ",sensor=" ++ "UVSensor" ++ " value=" ++ fmt1 (7 / 3) ++
        " " ++ toString 0] := by
  have h : get_average_sample
      [Reading.scalar 2, Reading.scalar 2, Reading.scalar 3] =
      .ok (some (.scalar (7 / 3)), []) := by
    norm_num [get_average_sample, sumScalars]
  exact ⟨h, (post_data_format 0).1 _ (7 / 3) [] h⟩
